import Mathlib

/-!
# esp32-logging: pulse monitor, log relay and telnet transport

A shallow embedding of `src/main/main.c`.

* `gpio_intercom_task` becomes a step function `gpioStep` on the three
  task-local variables, fed one `Sample` (the value `gpio_get_level` returns
  and the value `esp_timer_get_time` would return) per loop iteration.
* `custom_log_handler` becomes a function from the formatted line, the way
  the platform passes a `va_list`, and the results the C library calls return
  to the list of calls it makes.
* `telnet_server_task` becomes a step function `telnetStep` that performs one
  socket call per step and consumes the value that call returns.

Target assumptions (ESP32-C3, RISC-V ilp32, GCC):

* C `int` is 32 bits wide, `int64_t` is 64 bits wide; narrowing conversions
  wrap modulo the width, and `/` truncates toward zero.
* `va_list` is `void *` and is passed to a callee by value, so a callee that
  fetches arguments from it leaves the caller's `va_list` as it was.
  `custom_log_handler` hands one `va_list` first to `vsnprintf` and then to
  `vprintf` without `va_copy`; ISO C leaves the second use undefined, so the
  embedding takes the passing convention as a parameter (`VaListAbi`) and the
  theorems about the console text name the convention they hold for.
-/

namespace Esp32Logging

/-! ## Machine integers -/

/-- Value of a C `int` (32 bit, two's complement) obtained by converting `x`. -/
def toInt32 (x : Int) : Int := (x + 2147483648) % 4294967296 - 2147483648

/-- Value of an `int64_t` obtained by wrapping `x` to 64 bits. -/
def toInt64 (x : Int) : Int :=
  (x + 9223372036854775808) % 18446744073709551616 - 9223372036854775808

/-! ## Pulse monitor: `gpio_intercom_task` -/

/-- One loop iteration's inputs: the level `gpio_get_level` returns and the
`int64_t` microsecond count `esp_timer_get_time` returns when it is called. -/
structure Sample where
  level : Int
  now : Int
  deriving DecidableEq

/-- The log lines the loop of `gpio_intercom_task` emits. -/
inductive GpioEvent where
  | stateChanged (level : Int)
  | pulseWidth (ms : Int)
  deriving DecidableEq

/-- The task-local variables of `gpio_intercom_task`. -/
structure GpioState where
  last_state : Int
  pulse_start_time : Int
  pulse_width : Int
  deriving DecidableEq

/-- The variables as initialised before the loop: `int last_state = 0;`
`int pulse_start_time = 0;` `int pulse_width = 0;`. -/
def gpioInit : GpioState :=
  { last_state := 0, pulse_start_time := 0, pulse_width := 0 }

/-- The width computed on the rising edge:
`pulse_width = esp_timer_get_time() - pulse_start_time; pulse_width /= 1000;`.
The subtraction is done in `int64_t`, the result is stored in an `int`. -/
def pulseWidthOf (now pulse_start_time : Int) : Int :=
  Int.tdiv (toInt32 (toInt64 (now - pulse_start_time))) 1000

/-- One iteration of the `while (1)` loop of `gpio_intercom_task`. -/
def gpioStep (s : GpioState) (x : Sample) : GpioState × List GpioEvent :=
  let current_state := x.level
  if current_state ≠ s.last_state then
    if current_state = 0 then
      ({ s with pulse_start_time := toInt32 x.now, last_state := current_state },
        [GpioEvent.stateChanged current_state])
    else
      let w := pulseWidthOf x.now s.pulse_start_time
      ({ s with pulse_width := w, last_state := current_state },
        [GpioEvent.stateChanged current_state, GpioEvent.pulseWidth w])
  else
    (s, [])

/-- The loop run over a finite sequence of samples, collecting the events. -/
def gpioRun : GpioState → List Sample → GpioState × List GpioEvent
  | s, [] => (s, [])
  | s, x :: xs =>
    let r := gpioStep s x
    let r2 := gpioRun r.1 xs
    (r2.1, r.2 ++ r2.2)

/-- Events emitted by `gpio_intercom_task` from its initial state. -/
def gpioEvents (xs : List Sample) : List GpioEvent := (gpioRun gpioInit xs).2

/-- Is the event a "Pulse width" line? -/
def GpioEvent.isPulseWidth : GpioEvent → Bool
  | GpioEvent.pulseWidth _ => true
  | GpioEvent.stateChanged _ => false

/-- Number of "Pulse width" lines among the events. -/
def pulseEventCount (es : List GpioEvent) : Nat := (es.filter GpioEvent.isPulseWidth).length

/-- Number of ACTIVE (0) to IDLE (1) transitions between consecutive entries
of a level sequence. -/
def risingEdges : List Int → Nat
  | a :: b :: rest => (if a = 0 ∧ b = 1 then 1 else 0) + risingEdges (b :: rest)
  | _ => 0

/-! ## Log relay: `custom_log_handler` -/

/-- C library `vsnprintf(buffer, size, fmt, args)` on a buffer holding `buffer0`,
where `line` is the text the format and its arguments expand to: at most
`size - 1` bytes of the text are stored, followed by a terminating zero byte,
the rest of the buffer is untouched, and the value returned is the length of
the whole text, however much of it was stored. -/
def vsnprintf (buffer0 : List Nat) (size : Nat) (line : List Nat) : List Nat × Int :=
  if size = 0 then (buffer0, (line.length : Int))
  else
    let stored := line.take (size - 1)
    (stored ++ [0] ++ buffer0.drop (stored.length + 1), (line.length : Int))

/-- How the platform passes a `va_list` to a callee. `byValue`: the callee
works on its own copy, the caller's `va_list` still designates the first
argument afterwards (RISC-V ilp32, the ESP32-C3: `va_list` is `void *`).
`byReference`: `va_list` is an array type, the callee advances the caller's
`va_list`, which afterwards designates what follows the arguments the callee
fetched (x86-64 System V). -/
inductive VaListAbi where
  | byValue
  | byReference
  deriving DecidableEq

/-- What `custom_log_handler` is given besides its arguments: the bytes the
uninitialised `char buffer[256]` happens to hold, the value `send` returns, the
text `fmt` expands to when its arguments are fetched from a `va_list` that
`vsnprintf` has already advanced, and the value `vprintf` returns for the text
it is writing. -/
structure LogEnv where
  buffer0 : List Nat
  sendRet : Int
  reusedLine : List Nat
  vprintfRet : List Nat → Int

/-- Console that accepts every write: `vprintf` returns the number of bytes
written. -/
def vprintfOk (text : List Nat) : Int := (text.length : Int)

/-- The library calls `custom_log_handler` makes. `send sock buffer len` is
`send(client_sock, buffer, len, 0)` with `buffer` the contents of the 256-byte
array at the time of the call; `vprintf text` writes `text` to the console. -/
inductive LogCall where
  | send (sock : Int) (buffer : List Nat) (len : Int)
  | vprintf (line : List Nat)
  deriving DecidableEq

/-- The text `vprintf(fmt, args)` writes at the end of `custom_log_handler`,
where `line` is what `fmt` expands to with `args` as the handler received it:
`args` is the same object `vsnprintf` was given when `traversed` is true. -/
def vprintfText (abi : VaListAbi) (traversed : Bool) (env : LogEnv) (line : List Nat) :
    List Nat :=
  match abi, traversed with
  | VaListAbi.byReference, true => env.reusedLine
  | _, _ => line

/-- The function `custom_log_handler(fmt, args)`, with `client_sock` the value of
the global when it is called and `line` the text `fmt` and `args` expand to on
entry. Returns the calls made, in order, and the value returned. -/
def custom_log_handler (abi : VaListAbi) (client_sock : Int) (env : LogEnv)
    (line : List Nat) : List LogCall × Int :=
  if client_sock ≥ 0 then
    let r := vsnprintf env.buffer0 256 line
    let len := r.2
    let sends := if len > 0 then [LogCall.send client_sock r.1 len] else []
    let text := vprintfText abi true env line
    (sends ++ [LogCall.vprintf text], env.vprintfRet text)
  else
    let text := vprintfText abi false env line
    ([LogCall.vprintf text], env.vprintfRet text)

/-- The `send` calls among a list of calls. -/
def sendCalls (cs : List LogCall) : List LogCall :=
  cs.filter (fun c => match c with | LogCall.send _ _ _ => true | LogCall.vprintf _ => false)

/-- The texts written to the console among a list of calls. -/
def consoleWrites : List LogCall → List (List Nat)
  | [] => []
  | LogCall.vprintf line :: cs => line :: consoleWrites cs
  | LogCall.send _ _ _ :: cs => consoleWrites cs

/-- The bytes `send` reads when asked for `len` bytes at the start of the
array holding `buffer`: bytes past the end of the array come from `beyond`,
the memory that follows it. -/
def sentBytes (buffer : List Nat) (len : Int) (beyond : List Nat) : List Nat :=
  (buffer ++ beyond).take len.toNat

/-! ## Network transport: `telnet_server_task` -/

/-- The lines `telnet_server_task` logs. -/
inductive TelnetLog where
  | unableToCreateSocket
  | unableToBind
  | errorListening
  | listening
  | unableToAccept
  | clientConnected
  | recvFailed
  | clientDisconnected
  | received (len : Int)
  deriving DecidableEq

/-- The calls `telnet_server_task` makes; `ret` is the value the call returned. -/
inductive NetCall where
  | socket (ret : Int)
  | bind (sock : Int) (ret : Int)
  | listen (sock : Int) (backlog : Int) (ret : Int)
  | accept (sock : Int) (ret : Int)
  | recv (sock : Int) (size : Int) (ret : Int)
  | close (sock : Int)
  | logE (msg : TelnetLog)
  | logI (msg : TelnetLog)
  | vTaskDelete
  deriving DecidableEq

/-- The blocking call the task is about to make; `deleted` after
`vTaskDelete(NULL)`, which does not return. -/
inductive TelnetPc where
  | atSocket
  | atBind
  | atListen
  | atAccept
  | atRecv
  | deleted
  deriving DecidableEq

/-- The two globals and the position of `telnet_server_task`. -/
structure TelnetState where
  pc : TelnetPc
  client_sock : Int
  server_sock : Int
  deriving DecidableEq

/-- State at task start: `static int client_sock = -1; static int server_sock = -1;`. -/
def telnetInit : TelnetState :=
  { pc := TelnetPc.atSocket, client_sock := -1, server_sock := -1 }

/-- The task runs up to and including its next socket call, which returns `ret`,
and on through everything that follows until the call after it. -/
def telnetStep (s : TelnetState) (ret : Int) : TelnetState × List NetCall :=
  match s.pc with
  | TelnetPc.atSocket =>
    if ret < 0 then
      ({ s with server_sock := ret, pc := TelnetPc.deleted },
        [NetCall.socket ret, NetCall.logE TelnetLog.unableToCreateSocket, NetCall.vTaskDelete])
    else
      ({ s with server_sock := ret, pc := TelnetPc.atBind }, [NetCall.socket ret])
  | TelnetPc.atBind =>
    if ret ≠ 0 then
      ({ s with pc := TelnetPc.deleted },
        [NetCall.bind s.server_sock ret, NetCall.logE TelnetLog.unableToBind,
         NetCall.close s.server_sock, NetCall.vTaskDelete])
    else
      ({ s with pc := TelnetPc.atListen }, [NetCall.bind s.server_sock ret])
  | TelnetPc.atListen =>
    if ret ≠ 0 then
      ({ s with pc := TelnetPc.deleted },
        [NetCall.listen s.server_sock 1 ret, NetCall.logE TelnetLog.errorListening,
         NetCall.close s.server_sock, NetCall.vTaskDelete])
    else
      ({ s with pc := TelnetPc.atAccept },
        [NetCall.listen s.server_sock 1 ret, NetCall.logI TelnetLog.listening])
  | TelnetPc.atAccept =>
    if ret < 0 then
      ({ s with client_sock := ret, pc := TelnetPc.atAccept },
        [NetCall.accept s.server_sock ret, NetCall.logE TelnetLog.unableToAccept])
    else
      ({ s with client_sock := ret, pc := TelnetPc.atRecv },
        [NetCall.accept s.server_sock ret, NetCall.logI TelnetLog.clientConnected])
  | TelnetPc.atRecv =>
    if ret < 0 then
      ({ s with client_sock := -1, pc := TelnetPc.atAccept },
        [NetCall.recv s.client_sock 127 ret, NetCall.logE TelnetLog.recvFailed,
         NetCall.close s.client_sock])
    else if ret = 0 then
      ({ s with client_sock := -1, pc := TelnetPc.atAccept },
        [NetCall.recv s.client_sock 127 ret, NetCall.logI TelnetLog.clientDisconnected,
         NetCall.close s.client_sock])
    else
      ({ s with pc := TelnetPc.atRecv },
        [NetCall.recv s.client_sock 127 ret, NetCall.logI (TelnetLog.received ret)])
  | TelnetPc.deleted => (s, [])

/-- The task run against the values its successive socket calls return. -/
def telnetRun : TelnetState → List Int → TelnetState × List NetCall
  | s, [] => (s, [])
  | s, r :: rs =>
    let a := telnetStep s r
    let b := telnetRun a.1 rs
    (b.1, a.2 ++ b.2)

/-- Accepted client handles open after one more call: a successful `accept`
opens the handle it returns, `close` releases the handle it is given. -/
def openStep (o : List Int) : NetCall → List Int
  | NetCall.accept _ ret => if ret ≥ 0 then ret :: o else o
  | NetCall.close fd => o.erase fd
  | _ => o

/-- Accepted client handles open after a sequence of calls. -/
def openAfter : List Int → List NetCall → List Int
  | o, [] => o
  | o, c :: cs => openAfter (openStep o c) cs

/-- Is the call an `accept`? -/
def NetCall.isAccept : NetCall → Bool
  | NetCall.accept _ _ => true
  | _ => false

/-- Is the call a `close`? -/
def NetCall.isClose : NetCall → Bool
  | NetCall.close _ => true
  | _ => false

/-- Monitor over a sequence of calls, starting with the handles `o` open: at
every point at most one accepted handle is open, and every `accept` is made
with none open. -/
def slotDiscipline : List Int → List NetCall → Bool
  | o, [] => decide (o.length ≤ 1)
  | o, c :: cs =>
    decide (o.length ≤ 1) && (!c.isAccept || o.isEmpty) && slotDiscipline (openStep o c) cs

/-- The connection-slot invariant between steps, with `o` the accepted handles
currently open: while the task is in the read loop the one open handle is the
one stored in `client_sock`; anywhere else none is open and `client_sock` is
negative. -/
def slotInv (s : TelnetState) (o : List Int) : Prop :=
  if s.pc = TelnetPc.atRecv then o = [s.client_sock] ∧ 0 ≤ s.client_sock
  else o = [] ∧ s.client_sock < 0

/-! ## Theorems: machine integers -/

theorem toInt32_of_range (x : Int) (h0 : -2147483648 ≤ x) (h1 : x < 2147483648) :
    toInt32 x = x := by
  unfold toInt32
  omega

theorem toInt32_sub_toInt32 (a b : Int) : toInt32 (a - toInt32 b) = toInt32 (a - b) := by
  unfold toInt32
  omega

theorem toInt32_toInt64 (x : Int) : toInt32 (toInt64 x) = toInt32 x := by
  unfold toInt32 toInt64
  omega

/-- The width computed from a stored (narrowed) start time is the truncated
quotient of the true difference, whatever the size of the two time stamps,
as long as the difference itself fits an `int`. -/
theorem pulseWidthOf_exact (t_falling t_rising : Int)
    (h0 : t_falling ≤ t_rising) (h1 : t_rising - t_falling < 2147483648) :
    pulseWidthOf t_rising (toInt32 t_falling) = (t_rising - t_falling) / 1000 := by
  unfold pulseWidthOf
  rw [toInt32_toInt64, toInt32_sub_toInt32, toInt32_of_range _ (by omega) h1]
  exact Int.tdiv_eq_ediv (by omega) (by decide)

/-! ## Theorems: pulse monitor -/

theorem gpioRun_append (s : GpioState) (xs ys : List Sample) :
    gpioRun s (xs ++ ys) =
      ((gpioRun (gpioRun s xs).1 ys).1, (gpioRun s xs).2 ++ (gpioRun (gpioRun s xs).1 ys).2) := by
  induction xs generalizing s with
  | nil => simp [gpioRun]
  | cons x xs ih => simp [gpioRun, ih, List.append_assoc]

theorem pulseEventCount_append (a b : List GpioEvent) :
    pulseEventCount (a ++ b) = pulseEventCount a + pulseEventCount b := by
  simp [pulseEventCount]

/-- From any state, over samples that are all 0 or 1, the number of
"Pulse width" lines is the number of 0 to 1 transitions of the level sequence
with the recorded level put in front of it. -/
theorem pulseEventCount_gpioRun (s : GpioState) (xs : List Sample)
    (hs : s.last_state = 0 ∨ s.last_state = 1)
    (hx : ∀ x ∈ xs, x.level = 0 ∨ x.level = 1) :
    pulseEventCount (gpioRun s xs).2 = risingEdges (s.last_state :: xs.map Sample.level) := by
  induction xs generalizing s with
  | nil => simp [gpioRun, pulseEventCount, risingEdges]
  | cons x xs ih =>
    have hx0 : x.level = 0 ∨ x.level = 1 := hx x (List.mem_cons_self _ _)
    have hxs : ∀ y ∈ xs, y.level = 0 ∨ y.level = 1 := fun y hy => hx y (List.mem_cons_of_mem _ hy)
    have hlast : (gpioStep s x).1.last_state = x.level := by
      unfold gpioStep
      dsimp only
      split_ifs with h1 h2
      · rfl
      · rfl
      · exact (not_not.mp h1).symm
    have ih2 := ih (gpioStep s x).1 (by rw [hlast]; exact hx0) hxs
    simp only [gpioRun, pulseEventCount_append, ih2, hlast, List.map_cons, risingEdges]
    congr 1
    unfold gpioStep
    rcases hs with hs | hs <;> rcases hx0 with h | h <;>
      simp [hs, h, pulseEventCount, GpioEvent.isPulseWidth]

theorem gpioRun_steady (s : GpioState) (xs : List Sample)
    (h : ∀ x ∈ xs, x.level = s.last_state) : gpioRun s xs = (s, []) := by
  induction xs with
  | nil => rfl
  | cons x xs ih =>
    have hx : x.level = s.last_state := h x (List.mem_cons_self _ _)
    have hstep : gpioStep s x = (s, []) := by
      unfold gpioStep
      simp [hx]
    simp [gpioRun, hstep, ih (fun y hy => h y (List.mem_cons_of_mem _ hy))]

/-- The events of a whole high, low, high trace, from the initial state: the
first high sample (taken at `t0`) already produces a "state changed 1" line and
a "Pulse width" line measured from time 0; the pulse itself then produces the
three lines of the scenario. -/
theorem gpioEvents_high_low_high (t0 t1 t2 : Int) (hi lo hi2 : List Sample)
    (hhi : ∀ x ∈ hi, x.level = 1) (hlo : ∀ x ∈ lo, x.level = 0)
    (hhi2 : ∀ x ∈ hi2, x.level = 1)
    (h12 : t1 ≤ t2) (hd : t2 - t1 < 2147483648) :
    gpioEvents ((⟨1, t0⟩ :: hi) ++ (⟨0, t1⟩ :: lo) ++ (⟨1, t2⟩ :: hi2)) =
      [GpioEvent.stateChanged 1, GpioEvent.pulseWidth (pulseWidthOf t0 0),
       GpioEvent.stateChanged 0, GpioEvent.stateChanged 1,
       GpioEvent.pulseWidth ((t2 - t1) / 1000)] := by
  unfold gpioEvents
  rw [gpioRun_append, gpioRun_append]
  have e1 : gpioRun gpioInit (⟨1, t0⟩ :: hi) =
      (⟨1, 0, pulseWidthOf t0 0⟩,
        [GpioEvent.stateChanged 1, GpioEvent.pulseWidth (pulseWidthOf t0 0)]) := by
    have hst := gpioRun_steady ⟨1, 0, pulseWidthOf t0 0⟩ hi hhi
    simp [gpioRun, gpioStep, gpioInit, hst]
  have e2 : gpioRun ⟨1, 0, pulseWidthOf t0 0⟩ (⟨0, t1⟩ :: lo) =
      (⟨0, toInt32 t1, pulseWidthOf t0 0⟩, [GpioEvent.stateChanged 0]) := by
    have hst := gpioRun_steady ⟨0, toInt32 t1, pulseWidthOf t0 0⟩ lo hlo
    simp [gpioRun, gpioStep, hst]
  have e3 : gpioRun ⟨0, toInt32 t1, pulseWidthOf t0 0⟩ (⟨1, t2⟩ :: hi2) =
      (⟨1, toInt32 t1, (t2 - t1) / 1000⟩,
        [GpioEvent.stateChanged 1, GpioEvent.pulseWidth ((t2 - t1) / 1000)]) := by
    have hst := gpioRun_steady ⟨1, toInt32 t1, (t2 - t1) / 1000⟩ hi2 hhi2
    simp [gpioRun, gpioStep, hst, pulseWidthOf_exact t1 t2 h12 hd]
  simp [e1, e2, e3]

/-- C1 (fails on the code): fed the single sample "level 1", the loop emits a
"Pulse width" line, although the sampled sequence holds no 0 to 1 transition
and no falling edge was ever observed. -/
theorem c1_orphan_pulse_width_at_boot :
    gpioEvents [⟨1, 5000⟩] = [GpioEvent.stateChanged 1, GpioEvent.pulseWidth 5] ∧
    pulseEventCount (gpioEvents [⟨1, 5000⟩]) = 1 ∧
    risingEdges ([(⟨1, 5000⟩ : Sample)].map Sample.level) = 0 := by
  decide

/-- C2 (fails on the code): a falling edge at 10000 us followed by a rising edge
2^31 us later is reported as a pulse of -2147483 ms; the claim requires
floor(2147483648 / 1000) = 2147483 ms and a non-negative width. -/
theorem c2_width_negative_after_2_pow_31 :
    gpioEvents [⟨1, 0⟩, ⟨0, 10000⟩, ⟨1, 2147493648⟩] =
      [GpioEvent.stateChanged 1, GpioEvent.pulseWidth 0, GpioEvent.stateChanged 0,
       GpioEvent.stateChanged 1, GpioEvent.pulseWidth (-2147483)] ∧
    (2147493648 - 10000 : Int) / 1000 = 2147483 := by
  decide

/-- C3 (fails on the code): the recorded level starts at 0, the active (low)
level. A first sample at the high level is a transition: the first iteration
emits "state changed 1" and a "Pulse width" line and changes the state, while a
first sample at the low level leaves the state as it was and emits nothing. -/
theorem c3_first_sample_compared_with_low (t : Int) :
    gpioInit.last_state = 0 ∧
    gpioStep gpioInit ⟨1, t⟩ =
      (⟨1, 0, pulseWidthOf t 0⟩,
        [GpioEvent.stateChanged 1, GpioEvent.pulseWidth (pulseWidthOf t 0)]) ∧
    gpioStep gpioInit ⟨0, t⟩ = (gpioInit, []) := by
  simp [gpioInit, gpioStep]

/-- C4 (fails on the code): line high at boot (sampled at 20 ms), low at
1000 ms, high again at 1350 ms. The loop emits five lines, not three: the
scenario's lines come after a "state changed 1" and a "Pulse width: 20 ms" line
produced by the first high sample. -/
theorem c4_scenario_has_two_extra_events :
    gpioEvents [⟨1, 20000⟩, ⟨1, 990000⟩, ⟨0, 1000000⟩, ⟨0, 1340000⟩, ⟨1, 1350000⟩,
        ⟨1, 1360000⟩] =
      [GpioEvent.stateChanged 1, GpioEvent.pulseWidth 20,
       GpioEvent.stateChanged 0, GpioEvent.stateChanged 1, GpioEvent.pulseWidth 350] := by
  decide

/-! ## Theorems: log relay -/

theorem vsnprintf_short (buffer0 line : List Nat) (h : line.length ≤ 255) :
    vsnprintf buffer0 256 line =
      (line ++ [0] ++ buffer0.drop (line.length + 1), (line.length : Int)) := by
  have ht : line.take 255 = line := List.take_of_length_le h
  simp [vsnprintf, ht]

theorem sentBytes_prefix (line rest beyond : List Nat) :
    sentBytes (line ++ rest) (line.length : Int) beyond = line := by
  simp [sentBytes, List.append_assoc]

theorem sentBytes_truncated_ne (a n : Nat) (len : Int) (beyond : List Nat)
    (ha : a ≠ 0) (hlen : len = (n : Int) + 1) :
    sentBytes (List.replicate n a ++ [0]) len beyond ≠ List.replicate (n + 1) a := by
  have h : sentBytes (List.replicate n a ++ [0]) len beyond = List.replicate n a ++ [0] := by
    have h1 := sentBytes_prefix (List.replicate n a ++ [0]) [] beyond
    have h2 : (((List.replicate n a ++ [0]).length : Nat) : Int) = len := by
      rw [hlen]
      simp
    rw [h2] at h1
    simpa using h1
  rw [h, List.replicate_succ']
  intro hc
  have h3 := List.append_cancel_left hc
  simp at h3
  exact ha h3.symm

theorem vprintfText_byValue (traversed : Bool) (env : LogEnv) (line : List Nat) :
    vprintfText VaListAbi.byValue traversed env line = line := by
  cases traversed <;> rfl

theorem vprintfText_fresh (abi : VaListAbi) (env : LogEnv) (line : List Nat) :
    vprintfText abi false env line = line := by
  cases abi <;> rfl

/-- With no client attached `vsnprintf` is not called: whatever the passing
convention, the one call made is the console write of the line. -/
theorem custom_log_handler_no_client (abi : VaListAbi) (no_client : Int) (env : LogEnv)
    (line : List Nat) (hn : no_client < 0) :
    custom_log_handler abi no_client env line =
      ([LogCall.vprintf line], env.vprintfRet line) := by
  have hn2 : ¬ (no_client ≥ 0) := by omega
  simp [custom_log_handler, hn2, vprintfText_fresh]

/-- Where `va_list` is passed by reference (not the target's convention), the
console write that follows a `vsnprintf` on the same `va_list` is the text of
the advanced `va_list`: with a client attached, `send` is handed the line and
the console receives the other text. -/
theorem custom_log_handler_va_list_reused :
    custom_log_handler VaListAbi.byReference 3
        ⟨[7, 7, 7, 7, 7, 7, 7, 7], 5, [66, 66, 66, 66, 66], vprintfOk⟩ [65, 65, 65, 65, 65] =
      ([LogCall.send 3 [65, 65, 65, 65, 65, 0, 7, 7] 5, LogCall.vprintf [66, 66, 66, 66, 66]],
        5) := by
  decide

set_option maxRecDepth 100000 in
/-- C5 (as stated, fails): with a client attached and a 256-byte line, `send` is
asked for 256 bytes of a buffer that holds 255 bytes of the line and the
terminating zero, so the bytes it is handed differ from the line. -/
theorem c5_long_line_bytes_differ :
    (custom_log_handler VaListAbi.byValue 3 ⟨List.replicate 256 0, 0, [], vprintfOk⟩
        (List.replicate 256 65)).1 =
      [LogCall.send 3 (List.replicate 255 65 ++ [0]) 256,
       LogCall.vprintf (List.replicate 256 65)] ∧
    ∀ beyond, sentBytes (List.replicate 255 65 ++ [0]) 256 beyond ≠ List.replicate 256 65 :=
  ⟨by decide, fun beyond => sentBytes_truncated_ne 65 255 256 beyond (by decide) (by decide)⟩

/-- C5 (amended): where `va_list` is passed by value (the target), or with no
client attached, the one console write is the line. With a client attached, a
line of 1 to 255 bytes is handed to `send` byte for byte, in one call made
before the one console write, under either passing convention; for the empty
line `send` is not called. -/
theorem c5_short_line_forwarded_identically (abi : VaListAbi) (client_sock : Int)
    (env : LogEnv) (line : List Nat) :
    (abi = VaListAbi.byValue ∨ client_sock < 0 →
      consoleWrites (custom_log_handler abi client_sock env line).1 = [line]) ∧
    (0 ≤ client_sock → 0 < line.length → line.length ≤ 255 →
      (custom_log_handler abi client_sock env line).1 =
          [LogCall.send client_sock (line ++ [0] ++ env.buffer0.drop (line.length + 1))
             (line.length : Int),
           LogCall.vprintf (if abi = VaListAbi.byValue then line else env.reusedLine)] ∧
        ∀ beyond, sentBytes (line ++ [0] ++ env.buffer0.drop (line.length + 1))
          (line.length : Int) beyond = line) ∧
    (line = [] → sendCalls (custom_log_handler abi client_sock env line).1 = []) := by
  refine ⟨?_, ?_, ?_⟩
  · intro h
    rcases h with h | h
    · subst h
      unfold custom_log_handler
      dsimp only
      split_ifs <;> simp [consoleWrites, vprintfText_byValue]
    · rw [custom_log_handler_no_client abi client_sock env line h]
      rfl
  · intro hc hpos hle
    refine ⟨?_, ?_⟩
    · have hpos2 : (0 : Int) < (line.length : Int) := by exact_mod_cast hpos
      cases abi <;>
        simp [custom_log_handler, vsnprintf_short _ _ hle, hc, hpos2, vprintfText]
    · intro beyond
      rw [List.append_assoc]
      exact sentBytes_prefix line _ beyond
  · intro hl
    subst hl
    unfold custom_log_handler
    dsimp only
    split_ifs <;> simp_all [vsnprintf, sendCalls]

theorem c5_short_line_forwarded_identically_witness :
    consoleWrites (custom_log_handler VaListAbi.byValue 3
        ⟨List.replicate 8 7, 0, [66, 66], vprintfOk⟩ [72, 105]).1 = [[72, 105]] ∧
    ((custom_log_handler VaListAbi.byValue 3
        ⟨List.replicate 8 7, 0, [66, 66], vprintfOk⟩ [72, 105]).1 =
        [LogCall.send 3 ([72, 105] ++ [0] ++ (List.replicate 8 7).drop (2 + 1)) 2,
         LogCall.vprintf [72, 105]] ∧
      ∀ beyond, sentBytes ([72, 105] ++ [0] ++ (List.replicate 8 7).drop (2 + 1)) 2 beyond
        = [72, 105]) ∧
    sendCalls (custom_log_handler VaListAbi.byValue 3
        ⟨List.replicate 8 7, 0, [66, 66], vprintfOk⟩ []).1 = [] :=
  ⟨(c5_short_line_forwarded_identically VaListAbi.byValue 3
      ⟨List.replicate 8 7, 0, [66, 66], vprintfOk⟩ [72, 105]).1 (Or.inl rfl),
   (c5_short_line_forwarded_identically VaListAbi.byValue 3
      ⟨List.replicate 8 7, 0, [66, 66], vprintfOk⟩ [72, 105]).2.1
      (by decide) (by decide) (by decide),
   (c5_short_line_forwarded_identically VaListAbi.byValue 3
      ⟨List.replicate 8 7, 0, [66, 66], vprintfOk⟩ []).2.2 rfl⟩

/-- C6: with no client attached (`no_client < 0`) the handler makes exactly one
call, the console write of the line, and returns what `vprintf` returned for it,
under either passing convention; with any value of `client_sock` and any value
returned by `send`, at most one `send` is made, before the one console write;
and where `va_list` is passed by value (the target), the console write and the
value returned are those of the no-client case. -/
theorem c6_result_independent_of_transport (abi : VaListAbi) (client_sock no_client : Int)
    (env : LogEnv) (line : List Nat) (sendRet : Int) (hn : no_client < 0) :
    custom_log_handler abi no_client env line =
      ([LogCall.vprintf line], env.vprintfRet line) ∧
    (sendCalls (custom_log_handler abi client_sock
      ⟨env.buffer0, sendRet, env.reusedLine, env.vprintfRet⟩ line).1).length ≤ 1 ∧
    (consoleWrites (custom_log_handler abi client_sock
      ⟨env.buffer0, sendRet, env.reusedLine, env.vprintfRet⟩ line).1).length = 1 ∧
    (abi = VaListAbi.byValue →
      consoleWrites (custom_log_handler abi client_sock
          ⟨env.buffer0, sendRet, env.reusedLine, env.vprintfRet⟩ line).1 =
        consoleWrites (custom_log_handler abi no_client env line).1 ∧
      (custom_log_handler abi client_sock
          ⟨env.buffer0, sendRet, env.reusedLine, env.vprintfRet⟩ line).2 =
        (custom_log_handler abi no_client env line).2) := by
  rw [custom_log_handler_no_client abi no_client env line hn]
  refine ⟨rfl, ?_, ?_, ?_⟩
  · unfold custom_log_handler
    dsimp only
    split_ifs <;> simp [sendCalls]
  · unfold custom_log_handler
    dsimp only
    split_ifs <;> simp [consoleWrites]
  · intro habi
    subst habi
    unfold custom_log_handler
    dsimp only
    split_ifs <;> simp [consoleWrites, vprintfText_byValue]

theorem c6_result_independent_of_transport_witness :
    custom_log_handler VaListAbi.byValue (-1) ⟨List.replicate 8 7, 0, [66, 66], vprintfOk⟩
        [72, 105] = ([LogCall.vprintf [72, 105]], 2) ∧
    consoleWrites (custom_log_handler VaListAbi.byValue 3
        ⟨List.replicate 8 7, -1, [66, 66], vprintfOk⟩ [72, 105]).1 =
      consoleWrites (custom_log_handler VaListAbi.byValue (-1)
        ⟨List.replicate 8 7, 0, [66, 66], vprintfOk⟩ [72, 105]).1 ∧
    (custom_log_handler VaListAbi.byValue 3
        ⟨List.replicate 8 7, -1, [66, 66], vprintfOk⟩ [72, 105]).2 =
      (custom_log_handler VaListAbi.byValue (-1)
        ⟨List.replicate 8 7, 0, [66, 66], vprintfOk⟩ [72, 105]).2 :=
  ⟨(c6_result_independent_of_transport VaListAbi.byValue 3 (-1)
      ⟨List.replicate 8 7, 0, [66, 66], vprintfOk⟩ [72, 105] (-1) (by decide)).1,
   (c6_result_independent_of_transport VaListAbi.byValue 3 (-1)
      ⟨List.replicate 8 7, 0, [66, 66], vprintfOk⟩ [72, 105] (-1) (by decide)).2.2.2 rfl⟩

set_option maxRecDepth 100000 in
/-- C10 (fails on the code): with a client attached and a 300-byte line, the
256-byte buffer holds 255 bytes of the line and the terminating zero, and the
count passed to `send` is 300. -/
theorem c10_send_count_exceeds_buffer :
    (custom_log_handler VaListAbi.byValue 3 ⟨List.replicate 256 0, 0, [], vprintfOk⟩
        (List.replicate 300 65)).1 =
      [LogCall.send 3 (List.replicate 255 65 ++ [0]) 300,
       LogCall.vprintf (List.replicate 300 65)] ∧
    (List.replicate 255 65 ++ [0] : List Nat).length = 256 ∧
    (256 : Int) < 300 := by
  decide

/-! ## Theorems: network transport -/

theorem telnetRun_append (s : TelnetState) (xs ys : List Int) :
    telnetRun s (xs ++ ys) =
      ((telnetRun (telnetRun s xs).1 ys).1,
        (telnetRun s xs).2 ++ (telnetRun (telnetRun s xs).1 ys).2) := by
  induction xs generalizing s with
  | nil => simp [telnetRun]
  | cons x xs ih => simp [telnetRun, ih, List.append_assoc]

theorem telnetRun_deleted (s : TelnetState) (rs : List Int) (h : s.pc = TelnetPc.deleted) :
    telnetRun s rs = (s, []) := by
  induction rs with
  | nil => rfl
  | cons r rs ih =>
    have hstep : telnetStep s r = (s, []) := by
      unfold telnetStep
      rw [h]
    simp [telnetRun, hstep, ih]

theorem openAfter_append (o : List Int) (a b : List NetCall) :
    openAfter o (a ++ b) = openAfter (openAfter o a) b := by
  induction a generalizing o with
  | nil => rfl
  | cons c cs ih => simp [openAfter, ih]

theorem slotDiscipline_append (o : List Int) (a b : List NetCall)
    (ha : slotDiscipline o a = true) (hb : slotDiscipline (openAfter o a) b = true) :
    slotDiscipline o (a ++ b) = true := by
  induction a generalizing o with
  | nil => simpa [openAfter] using hb
  | cons c cs ih =>
    simp only [slotDiscipline, Bool.and_eq_true] at ha
    simp only [List.cons_append, slotDiscipline, Bool.and_eq_true]
    exact ⟨ha.1, ih _ ha.2 (by simpa [openAfter] using hb)⟩

theorem slotInv_step (s : TelnetState) (o : List Int) (r : Int) (h : slotInv s o) :
    slotInv (telnetStep s r).1 (openAfter o (telnetStep s r).2) ∧
      slotDiscipline o (telnetStep s r).2 = true := by
  obtain ⟨pc, cs, ss⟩ := s
  have hneg : r < 0 → ¬ (0 ≤ r) := fun hr => not_le.mpr hr
  have hpos : ¬ r < 0 → 0 ≤ r := fun hr => not_lt.mp hr
  cases pc <;> simp only [slotInv, telnetStep] at h ⊢ <;> split_ifs with h1 h2 <;>
    simp_all [openAfter, openStep, slotDiscipline, NetCall.isAccept]
  split_ifs <;> simp

theorem slotInv_run (s : TelnetState) (o : List Int) (rs : List Int) (h : slotInv s o) :
    slotInv (telnetRun s rs).1 (openAfter o (telnetRun s rs).2) ∧
      slotDiscipline o (telnetRun s rs).2 = true := by
  induction rs generalizing s o with
  | nil =>
    have ho : o.length ≤ 1 := by
      unfold slotInv at h
      split_ifs at h <;> simp [h.1]
    simpa [telnetRun, openAfter, slotDiscipline] using And.intro h ho
  | cons r rs ih =>
    have h1 := slotInv_step s o r h
    have h2 := ih (telnetStep s r).1 (openAfter o (telnetStep s r).2) h1.1
    simp only [telnetRun, openAfter_append]
    exact ⟨h2.1, slotDiscipline_append _ _ _ h1.2 h2.2⟩

theorem slotInv_init : slotInv telnetInit [] := by
  simp [slotInv, telnetInit]

/-- C7: over every sequence of values the socket calls may return, the calls
`telnet_server_task` makes keep at most one accepted handle open and make every
`accept` with none open; between steps the open handles are exactly
`[client_sock]` (non-negative) inside the read loop and none (with
`client_sock` negative) anywhere else; and an `accept` that returns a negative
value leaves the task at `accept` with the slot negative and no handle open. -/
theorem c7_single_client_slot (rs : List Int) :
    slotDiscipline [] (telnetRun telnetInit rs).2 = true ∧
    (openAfter [] (telnetRun telnetInit rs).2).length ≤ 1 ∧
    (if (telnetRun telnetInit rs).1.pc = TelnetPc.atRecv then
        openAfter [] (telnetRun telnetInit rs).2 = [(telnetRun telnetInit rs).1.client_sock] ∧
          0 ≤ (telnetRun telnetInit rs).1.client_sock
      else
        openAfter [] (telnetRun telnetInit rs).2 = [] ∧
          (telnetRun telnetInit rs).1.client_sock < 0) ∧
    (∀ a : Int, (telnetRun telnetInit rs).1.pc = TelnetPc.atAccept → a < 0 →
      (telnetRun telnetInit (rs ++ [a])).1.pc = TelnetPc.atAccept ∧
      (telnetRun telnetInit (rs ++ [a])).1.client_sock = a ∧
      openAfter [] (telnetRun telnetInit (rs ++ [a])).2 = []) := by
  have h := slotInv_run telnetInit [] rs slotInv_init
  have hinv := h.1
  unfold slotInv at hinv
  refine ⟨h.2, ?_, hinv, ?_⟩
  · split_ifs at hinv <;> simp [hinv.1]
  · intro a hpc ha
    have h2 := (slotInv_run telnetInit [] (rs ++ [a]) slotInv_init).1
    have hstep : (telnetRun telnetInit (rs ++ [a])).1 =
        { (telnetRun telnetInit rs).1 with client_sock := a, pc := TelnetPc.atAccept } := by
      rw [telnetRun_append]
      simp [telnetRun, telnetStep, hpc, ha]
    unfold slotInv at h2
    rw [hstep] at h2 ⊢
    simp at h2
    exact ⟨rfl, rfl, h2.1⟩

theorem c7_single_client_slot_witness :
    (telnetRun telnetInit [3, 0, 0, 4, 7, 0]).1.pc = TelnetPc.atAccept ∧ (-1 : Int) < 0 ∧
    (telnetRun telnetInit ([3, 0, 0, 4, 7, 0] ++ [-1])).1.pc = TelnetPc.atAccept ∧
    (telnetRun telnetInit ([3, 0, 0, 4, 7, 0] ++ [-1])).1.client_sock = -1 ∧
    openAfter [] (telnetRun telnetInit ([3, 0, 0, 4, 7, 0] ++ [-1])).2 = [] :=
  ⟨by decide, by decide,
    (c7_single_client_slot [3, 0, 0, 4, 7, 0]).2.2.2 (-1) (by decide) (by decide)⟩

/-- C8: in the read loop, a `recv` result that is zero or negative makes the
task close `client_sock` exactly once, as the last call of the step, store -1 in
`client_sock`, keep `server_sock`, and start its next step with `accept` on that
same `server_sock`; a positive result leaves the state as it was and closes
nothing. -/
theorem c8_disconnect_teardown (s : TelnetState) (len : Int) (h : s.pc = TelnetPc.atRecv) :
    (len ≤ 0 →
      (telnetStep s len).1 = ⟨TelnetPc.atAccept, -1, s.server_sock⟩ ∧
      (telnetStep s len).2.head? = some (NetCall.recv s.client_sock 127 len) ∧
      (telnetStep s len).2.filter NetCall.isClose = [NetCall.close s.client_sock] ∧
      (telnetStep s len).2.getLast? = some (NetCall.close s.client_sock) ∧
      (telnetStep s len).2.filter NetCall.isAccept = [] ∧
      ∀ a : Int, (telnetStep (telnetStep s len).1 a).2.head? =
        some (NetCall.accept s.server_sock a)) ∧
    (0 < len →
      (telnetStep s len).1 = s ∧
      (telnetStep s len).2 =
        [NetCall.recv s.client_sock 127 len, NetCall.logI (TelnetLog.received len)]) := by
  obtain ⟨pc, cs, ss⟩ := s
  simp only at h
  subst h
  constructor
  · intro hle
    rcases lt_or_eq_of_le hle with hlt | heq
    · refine ⟨?_, ?_, ?_, ?_, ?_, ?_⟩ <;> try intro a
      all_goals simp only [telnetStep, hlt, if_true]
      all_goals first | rfl | (split_ifs <;> rfl)
    · subst heq
      refine ⟨?_, ?_, ?_, ?_, ?_, ?_⟩ <;> try intro a
      all_goals simp only [telnetStep]
      all_goals first | rfl | (split_ifs <;> rfl)
  · intro hpos
    have h1 : ¬ len < 0 := by omega
    have h2 : ¬ len = 0 := by omega
    simp [telnetStep, h1, h2]

theorem c8_disconnect_teardown_witness :
    ((telnetStep ⟨TelnetPc.atRecv, 4, 3⟩ 0).1 = ⟨TelnetPc.atAccept, -1, 3⟩ ∧
      (telnetStep ⟨TelnetPc.atRecv, 4, 3⟩ 0).2.head? = some (NetCall.recv 4 127 0) ∧
      (telnetStep ⟨TelnetPc.atRecv, 4, 3⟩ 0).2.filter NetCall.isClose = [NetCall.close 4] ∧
      (telnetStep ⟨TelnetPc.atRecv, 4, 3⟩ 0).2.getLast? = some (NetCall.close 4) ∧
      (telnetStep ⟨TelnetPc.atRecv, 4, 3⟩ 0).2.filter NetCall.isAccept = [] ∧
      ∀ a : Int, (telnetStep (telnetStep ⟨TelnetPc.atRecv, 4, 3⟩ 0).1 a).2.head? =
        some (NetCall.accept 3 a)) ∧
    ((telnetStep ⟨TelnetPc.atRecv, 4, 3⟩ 5).1 = ⟨TelnetPc.atRecv, 4, 3⟩ ∧
      (telnetStep ⟨TelnetPc.atRecv, 4, 3⟩ 5).2 =
        [NetCall.recv 4 127 5, NetCall.logI (TelnetLog.received 5)]) :=
  ⟨(c8_disconnect_teardown ⟨TelnetPc.atRecv, 4, 3⟩ 0 rfl).1 (by decide),
   (c8_disconnect_teardown ⟨TelnetPc.atRecv, 4, 3⟩ 5 rfl).2 (by decide)⟩

/-- C9: when `socket` succeeds and `bind` returns non-zero, or `bind` succeeds
and `listen` returns non-zero, the task logs one error line, closes the server
socket and deletes itself: whatever values later calls would return, its whole
sequence of calls ends there, holds no `accept`, and `client_sock` is still -1. -/
theorem c9_setup_failure_is_fatal (sfd ret : Int) (rest : List Int)
    (hs : 0 ≤ sfd) (hr : ret ≠ 0) :
    telnetRun telnetInit (sfd :: ret :: rest) =
      (⟨TelnetPc.deleted, -1, sfd⟩,
        [NetCall.socket sfd, NetCall.bind sfd ret, NetCall.logE TelnetLog.unableToBind,
         NetCall.close sfd, NetCall.vTaskDelete]) ∧
    telnetRun telnetInit (sfd :: 0 :: ret :: rest) =
      (⟨TelnetPc.deleted, -1, sfd⟩,
        [NetCall.socket sfd, NetCall.bind sfd 0, NetCall.listen sfd 1 ret,
         NetCall.logE TelnetLog.errorListening, NetCall.close sfd, NetCall.vTaskDelete]) := by
  have hs2 : ¬ sfd < 0 := by omega
  have hd := telnetRun_deleted ⟨TelnetPc.deleted, -1, sfd⟩ rest rfl
  constructor
  · simp [telnetRun, telnetStep, telnetInit, hs2, hr, hd]
  · simp [telnetRun, telnetStep, telnetInit, hs2, hr, hd]

theorem c9_setup_failure_is_fatal_witness :
    telnetRun telnetInit [3, -1, 4, 5] =
      (⟨TelnetPc.deleted, -1, 3⟩,
        [NetCall.socket 3, NetCall.bind 3 (-1), NetCall.logE TelnetLog.unableToBind,
         NetCall.close 3, NetCall.vTaskDelete]) ∧
    telnetRun telnetInit [3, 0, -1, 4, 5] =
      (⟨TelnetPc.deleted, -1, 3⟩,
        [NetCall.socket 3, NetCall.bind 3 0, NetCall.listen 3 1 (-1),
         NetCall.logE TelnetLog.errorListening, NetCall.close 3, NetCall.vTaskDelete]) :=
  c9_setup_failure_is_fatal 3 (-1) [4, 5] (by decide) (by decide)

end Esp32Logging
